import Mathlib

/-!
Verification of the vicostream repository: a shallow embedding of the
RTP H264 depacketizer, the peer-session remote-description gate, the
signaling dispatch loop, and the session coordinator, together with
theorems settling the specification claims.

Bytes are modelled as `Nat` values (a Go `byte` always holds a value
below 256); 16-bit RTP sequence numbers are `Nat` values reduced
modulo 2^16 wherever the Go `uint16` arithmetic wraps.
-/

namespace Vicostream

/-- FU-A reassembly state of `H264Depacketizer`
(fields `fuaBuf`, `fuaStarted`, `expectedSeq` in the source). -/
structure H264Depacketizer where
  fuaBuf : List Nat
  fuaStarted : Bool
  expectedSeq : Nat
deriving Repr, DecidableEq

/-- `NewH264Depacketizer`: zero-valued fresh state. -/
def NewH264Depacketizer : H264Depacketizer :=
  { fuaBuf := [], fuaStarted := false, expectedSeq := 0 }

/-- The loop body of `depacketizeSTAPA`, phrased structurally on the bytes
that remain after the current offset: the Go loop runs while at least two
bytes remain, reads a big-endian 2-byte size `int(p[o])<<8 | int(p[o+1])`,
breaks on a zero size, breaks when the size exceeds the remaining payload,
and otherwise takes `size` bytes as one NAL unit. -/
def stapaLoop : List Nat → List (List Nat)
  | b0 :: b1 :: rest =>
    if (b0 <<< 8) ||| b1 = 0 then []
    else if rest.length < (b0 <<< 8) ||| b1 then []
    else rest.take ((b0 <<< 8) ||| b1) :: stapaLoop (rest.drop ((b0 <<< 8) ||| b1))
  | _ => []
termination_by l => l.length
decreasing_by simp; omega

/-- `depacketizeSTAPA`: skip the 1-byte STAP-A header, then run the size-prefix loop. -/
def depacketizeSTAPA (payload : List Nat) : List (List Nat) :=
  stapaLoop (payload.drop 1)

/-- `depacketizeFUA`: FU-A fragment handling, returning the emitted units
and the updated depacketizer state. Mirrors the source branch for branch:
short payload, start fragment (with or without end flag), orphan
middle/end fragment, sequence discontinuity, append and possibly emit. -/
def depacketizeFUA (d : H264Depacketizer) (sequenceNumber : Nat) (payload : List Nat) :
    List (List Nat) × H264Depacketizer :=
  if payload.length < 2 then ([], d)
  else if payload.getD 1 0 &&& 0x80 ≠ 0 then
    if payload.getD 1 0 &&& 0x40 ≠ 0 then
      ([((payload.getD 0 0 &&& 0xe0) ||| (payload.getD 1 0 &&& 0x1f)) :: payload.drop 2],
       { d with fuaBuf := [], fuaStarted := false,
                expectedSeq := (sequenceNumber + 1) % 65536 })
    else
      ([], { d with
             fuaBuf := ((payload.getD 0 0 &&& 0xe0) ||| (payload.getD 1 0 &&& 0x1f)) ::
               payload.drop 2,
             fuaStarted := true,
             expectedSeq := (sequenceNumber + 1) % 65536 })
  else if d.fuaStarted = false then ([], d)
  else if sequenceNumber ≠ d.expectedSeq then
    ([], { d with fuaBuf := [], fuaStarted := false })
  else if payload.getD 1 0 &&& 0x40 ≠ 0 then
    ([d.fuaBuf ++ payload.drop 2],
     { d with fuaBuf := [], fuaStarted := false,
              expectedSeq := (sequenceNumber + 1) % 65536 })
  else
    ([], { d with fuaBuf := d.fuaBuf ++ payload.drop 2,
                  expectedSeq := (sequenceNumber + 1) % 65536 })

/-- `Depacketize`: classify by the low 5 bits of the first byte and
dispatch, as in the source switch. STAP-A and single-NAL handling leave
the FU-A state untouched; only the FU-A branch updates state. -/
def Depacketize (d : H264Depacketizer) (sequenceNumber : Nat) (payload : List Nat) :
    List (List Nat) × H264Depacketizer :=
  if payload.length < 1 then ([], d)
  else if 1 ≤ payload.getD 0 0 &&& 0x1f ∧ payload.getD 0 0 &&& 0x1f ≤ 23 then
    ([payload], d)
  else if payload.getD 0 0 &&& 0x1f = 24 then (depacketizeSTAPA payload, d)
  else if payload.getD 0 0 &&& 0x1f = 28 then depacketizeFUA d sequenceNumber payload
  else ([], d)

/-- Run `Depacketize` over a list of (sequence number, payload) packets,
threading the state and concatenating all emitted units. -/
def runAll (d : H264Depacketizer) : List (Nat × List Nat) → List (List Nat) × H264Depacketizer
  | [] => ([], d)
  | (q, p) :: rest =>
    ((Depacketize d q p).1 ++ (runAll (Depacketize d q p).2 rest).1,
     (runAll (Depacketize d q p).2 rest).2)

/-- The payload is a (well-formed) FU-A fragment: at least the FU indicator
and FU header bytes, with fragment type 28. -/
def isFUAPayload (p : List Nat) : Bool :=
  2 ≤ p.length && p.getD 0 0 &&& 0x1f == 28

/-- FU header start flag (bit 0x80). -/
def fuaStartFlag (p : List Nat) : Bool :=
  p.getD 1 0 &&& 0x80 != 0

/-- FU header end flag (bit 0x40). -/
def fuaEndFlag (p : List Nat) : Bool :=
  p.getD 1 0 &&& 0x40 != 0

/-- A middle or end fragment: FU-A payload with the start flag clear. -/
def isMidEndFrag (p : List Nat) : Bool :=
  isFUAPayload p && !fuaStartFlag p

/-- A middle fragment: FU-A payload with start and end flags both clear. -/
def isMidFrag (p : List Nat) : Bool :=
  isFUAPayload p && !fuaStartFlag p && !fuaEndFlag p

/-- An end fragment: FU-A payload with start clear and end set. -/
def isEndFrag (p : List Nat) : Bool :=
  isFUAPayload p && !fuaStartFlag p && fuaEndFlag p

/-- A start fragment: FU-A payload with the start flag set. -/
def isStartFrag (p : List Nat) : Bool :=
  isFUAPayload p && fuaStartFlag p

/-- Number a list of payloads with consecutive uint16 sequence numbers
starting at `q`. -/
def numberFrom : Nat → List (List Nat) → List (Nat × List Nat)
  | _, [] => []
  | q, p :: ps => (q, p) :: numberFrom ((q + 1) % 65536) ps

/-- The NAL header byte reconstructed by the FU-A start branch:
F and NRI bits of the FU indicator combined with the type of the FU header. -/
def fuaHeaderByte (p : List Nat) : Nat :=
  (p.getD 0 0 &&& 0xe0) ||| (p.getD 1 0 &&& 0x1f)

example : Depacketize NewH264Depacketizer 7 [0x65, 1, 2, 3] =
    ([[0x65, 1, 2, 3]], NewH264Depacketizer) := by decide

example : Depacketize NewH264Depacketizer 7 [0x18, 0, 3, 0x67, 0xAA, 0xBB, 0, 2, 0x68, 0xCC] =
    ([[0x67, 0xAA, 0xBB], [0x68, 0xCC]], NewH264Depacketizer) := by
  simp [Depacketize, depacketizeSTAPA, stapaLoop, NewH264Depacketizer]
  decide

example :
    (runAll NewH264Depacketizer
      [(100, [0x7C, 0x85, 1, 2]), (101, [0x7C, 0x05, 3, 4]), (102, [0x7C, 0x45, 5, 6])]).1 =
    [[0x65, 1, 2, 3, 4, 5, 6]] := by decide

example :
    (runAll NewH264Depacketizer
      [(100, [0x7C, 0x85, 1, 2]), (102, [0x7C, 0x05, 3, 4]), (103, [0x7C, 0x45, 5, 6])]).1 =
    [] := by decide

example : Depacketize NewH264Depacketizer 100 [0x18, 0, 0] = ([], NewH264Depacketizer) := by
  simp [Depacketize, depacketizeSTAPA, stapaLoop, NewH264Depacketizer]
  decide

theorem isFUAPayload_iff {p : List Nat} :
    isFUAPayload p = true ↔ 2 ≤ p.length ∧ p.getD 0 0 &&& 0x1f = 28 := by
  simp [isFUAPayload]

theorem fuaStartFlag_true_iff {p : List Nat} :
    fuaStartFlag p = true ↔ p.getD 1 0 &&& 0x80 ≠ 0 := by
  simp [fuaStartFlag]

theorem fuaStartFlag_false_iff {p : List Nat} :
    fuaStartFlag p = false ↔ p.getD 1 0 &&& 0x80 = 0 := by
  simp [fuaStartFlag]

theorem fuaEndFlag_true_iff {p : List Nat} :
    fuaEndFlag p = true ↔ p.getD 1 0 &&& 0x40 ≠ 0 := by
  simp [fuaEndFlag]

theorem fuaEndFlag_false_iff {p : List Nat} :
    fuaEndFlag p = false ↔ p.getD 1 0 &&& 0x40 = 0 := by
  simp [fuaEndFlag]

/-- On a type-28 payload, `Depacketize` routes to the FU-A handler. -/
theorem depacketize_type28 (d : H264Depacketizer) (q : Nat) (p : List Nat)
    (h1 : 1 ≤ p.length) (h28 : p.getD 0 0 &&& 0x1f = 28) :
    Depacketize d q p = depacketizeFUA d q p := by
  have h0 : ¬ p.length < 1 := by omega
  simp only [List.getD_eq_getElem?_getD] at h28
  simp [Depacketize, h28, h0]

/-- FU-A: a payload shorter than 2 bytes is dropped with the state unchanged. -/
theorem fua_short (d : H264Depacketizer) (q : Nat) (p : List Nat)
    (h1 : 1 ≤ p.length) (h28 : p.getD 0 0 &&& 0x1f = 28) (h2 : p.length < 2) :
    Depacketize d q p = ([], d) := by
  rw [depacketize_type28 d q p h1 h28]
  simp [depacketizeFUA, h2]

/-- FU-A start fragment without the end flag: begin a fresh buffer with the
reconstructed header, mark reassembly started, record the next expected
sequence number, and emit nothing. -/
theorem fua_start (d : H264Depacketizer) (q : Nat) (p : List Nat)
    (hf : isFUAPayload p = true) (hs : fuaStartFlag p = true) (he : fuaEndFlag p = false) :
    Depacketize d q p =
      ([], ⟨fuaHeaderByte p :: p.drop 2, true, (q + 1) % 65536⟩) := by
  obtain ⟨h2, h28⟩ := isFUAPayload_iff.mp hf
  have hs' : p.getD 1 0 &&& 0x80 ≠ 0 := fuaStartFlag_true_iff.mp hs
  have he' : p.getD 1 0 &&& 0x40 = 0 := fuaEndFlag_false_iff.mp he
  rw [depacketize_type28 d q p (by omega) h28]
  have h2' : ¬ p.length < 2 := by omega
  simp only [List.getD_eq_getElem?_getD] at hs' he'
  simp [depacketizeFUA, h2', hs', he', fuaHeaderByte]

/-- FU-A start fragment that also carries the end flag: immediately emit the
single-packet NAL and clear the reassembly state. -/
theorem fua_start_end (d : H264Depacketizer) (q : Nat) (p : List Nat)
    (hf : isFUAPayload p = true) (hs : fuaStartFlag p = true) (he : fuaEndFlag p = true) :
    Depacketize d q p =
      ([fuaHeaderByte p :: p.drop 2], ⟨[], false, (q + 1) % 65536⟩) := by
  obtain ⟨h2, h28⟩ := isFUAPayload_iff.mp hf
  have hs' : p.getD 1 0 &&& 0x80 ≠ 0 := fuaStartFlag_true_iff.mp hs
  have he' : p.getD 1 0 &&& 0x40 ≠ 0 := fuaEndFlag_true_iff.mp he
  rw [depacketize_type28 d q p (by omega) h28]
  have h2' : ¬ p.length < 2 := by omega
  simp only [List.getD_eq_getElem?_getD] at hs' he'
  simp [depacketizeFUA, h2', hs', he', fuaHeaderByte]

/-- FU-A orphan middle/end fragment (no reassembly in progress):
dropped, state unchanged. -/
theorem fua_orphan (d : H264Depacketizer) (q : Nat) (p : List Nat)
    (hf : isFUAPayload p = true) (hs : fuaStartFlag p = false)
    (hd : d.fuaStarted = false) :
    Depacketize d q p = ([], d) := by
  obtain ⟨h2, h28⟩ := isFUAPayload_iff.mp hf
  have hs' : p.getD 1 0 &&& 0x80 = 0 := fuaStartFlag_false_iff.mp hs
  rw [depacketize_type28 d q p (by omega) h28]
  have h2' : ¬ p.length < 2 := by omega
  simp only [List.getD_eq_getElem?_getD] at hs'
  simp [depacketizeFUA, h2', hs', hd]

/-- FU-A middle/end fragment with a sequence discontinuity: the buffered
state is discarded and nothing is emitted. -/
theorem fua_gap (d : H264Depacketizer) (q : Nat) (p : List Nat)
    (hf : isFUAPayload p = true) (hs : fuaStartFlag p = false)
    (hd : d.fuaStarted = true) (hq : q ≠ d.expectedSeq) :
    Depacketize d q p = ([], ⟨[], false, d.expectedSeq⟩) := by
  obtain ⟨h2, h28⟩ := isFUAPayload_iff.mp hf
  have hs' : p.getD 1 0 &&& 0x80 = 0 := fuaStartFlag_false_iff.mp hs
  rw [depacketize_type28 d q p (by omega) h28]
  have h2' : ¬ p.length < 2 := by omega
  simp only [List.getD_eq_getElem?_getD] at hs'
  simp [depacketizeFUA, h2', hs', hd, hq]

/-- FU-A in-sequence middle fragment: append the data bytes, advance the
expected sequence number, emit nothing. -/
theorem fua_mid (d : H264Depacketizer) (q : Nat) (p : List Nat)
    (hf : isFUAPayload p = true) (hs : fuaStartFlag p = false) (he : fuaEndFlag p = false)
    (hd : d.fuaStarted = true) (hq : q = d.expectedSeq) :
    Depacketize d q p = ([], ⟨d.fuaBuf ++ p.drop 2, true, (q + 1) % 65536⟩) := by
  obtain ⟨h2, h28⟩ := isFUAPayload_iff.mp hf
  have hs' : p.getD 1 0 &&& 0x80 = 0 := fuaStartFlag_false_iff.mp hs
  have he' : p.getD 1 0 &&& 0x40 = 0 := fuaEndFlag_false_iff.mp he
  rw [depacketize_type28 d q p (by omega) h28]
  have h2' : ¬ p.length < 2 := by omega
  simp only [List.getD_eq_getElem?_getD] at hs' he'
  simp [depacketizeFUA, h2', hs', he', hd, hq]

/-- FU-A in-sequence end fragment: emit the accumulated buffer plus the final
data bytes as one NAL unit and clear the reassembly state. -/
theorem fua_end (d : H264Depacketizer) (q : Nat) (p : List Nat)
    (hf : isFUAPayload p = true) (hs : fuaStartFlag p = false) (he : fuaEndFlag p = true)
    (hd : d.fuaStarted = true) (hq : q = d.expectedSeq) :
    Depacketize d q p = ([d.fuaBuf ++ p.drop 2], ⟨[], false, (q + 1) % 65536⟩) := by
  obtain ⟨h2, h28⟩ := isFUAPayload_iff.mp hf
  have hs' : p.getD 1 0 &&& 0x80 = 0 := fuaStartFlag_false_iff.mp hs
  have he' : p.getD 1 0 &&& 0x40 ≠ 0 := fuaEndFlag_true_iff.mp he
  rw [depacketize_type28 d q p (by omega) h28]
  have h2' : ¬ p.length < 2 := by omega
  simp only [List.getD_eq_getElem?_getD] at hs' he'
  simp [depacketizeFUA, h2', hs', he', hd, hq]

theorem runAll_nil (d : H264Depacketizer) : runAll d [] = ([], d) := rfl

theorem runAll_cons (d : H264Depacketizer) (q : Nat) (p : List Nat)
    (rest : List (Nat × List Nat)) :
    runAll d ((q, p) :: rest) =
      ((Depacketize d q p).1 ++ (runAll (Depacketize d q p).2 rest).1,
       (runAll (Depacketize d q p).2 rest).2) := rfl

theorem runAll_append (d : H264Depacketizer) (xs ys : List (Nat × List Nat)) :
    runAll d (xs ++ ys) =
      ((runAll d xs).1 ++ (runAll (runAll d xs).2 ys).1,
       (runAll (runAll d xs).2 ys).2) := by
  induction xs generalizing d with
  | nil => simp [runAll_nil]
  | cons hd tl ih =>
    obtain ⟨q, p⟩ := hd
    simp [runAll_cons, ih]

theorem numberFrom_nil (q : Nat) : numberFrom q [] = [] := rfl

theorem numberFrom_cons (q : Nat) (p : List Nat) (ps : List (List Nat)) :
    numberFrom q (p :: ps) = (q, p) :: numberFrom ((q + 1) % 65536) ps := rfl

theorem numberFrom_append (ps qs : List (List Nat)) (q : Nat) (hq : q < 65536) :
    numberFrom q (ps ++ qs) =
      numberFrom q ps ++ numberFrom ((q + ps.length) % 65536) qs := by
  induction ps generalizing q with
  | nil =>
    simp [numberFrom_nil, Nat.mod_eq_of_lt hq]
  | cons p ps ih =>
    have h1 : (q + 1) % 65536 < 65536 := Nat.mod_lt _ (by omega)
    rw [List.cons_append, numberFrom_cons, numberFrom_cons, ih _ h1]
    have : ((q + 1) % 65536 + ps.length) % 65536 = (q + (p :: ps).length) % 65536 := by
      simp [List.length_cons]
      omega
    rw [this, List.cons_append]

/-- Dropped orphan fragments: with no reassembly in progress, any run of
middle/end FU-A fragments yields no units and leaves the state unchanged. -/
theorem orphanRun (d : H264Depacketizer) (rest : List (Nat × List Nat))
    (hd : d.fuaStarted = false)
    (hrest : ∀ qp ∈ rest, isMidEndFrag qp.2 = true) :
    runAll d rest = ([], d) := by
  induction rest with
  | nil => exact runAll_nil d
  | cons hdp tl ih =>
    obtain ⟨q, p⟩ := hdp
    have hp : isMidEndFrag p = true := hrest (q, p) (List.mem_cons_self _ _)
    rw [isMidEndFrag, Bool.and_eq_true, Bool.not_eq_true'] at hp
    have hstep : Depacketize d q p = ([], d) := fua_orphan d q p hp.1 hp.2 hd
    rw [runAll_cons, hstep]
    simp [ih fun qp hqp => hrest qp (List.mem_cons_of_mem _ hqp)]

/-- Running a block of in-sequence middle fragments keeps reassembly in
progress, appends every fragment's data bytes (from byte 2 onward) to the
buffer, advances the expected sequence number, and emits nothing. -/
theorem midRun (mids : List (List Nat)) :
    ∀ (d : H264Depacketizer) (q : Nat), d.fuaStarted = true → d.expectedSeq = q →
      q < 65536 → (∀ m ∈ mids, isMidFrag m = true) →
      runAll d (numberFrom q mids) =
        ([], ⟨d.fuaBuf ++ mids.flatMap (List.drop 2), true, (q + mids.length) % 65536⟩) := by
  induction mids with
  | nil =>
    intro d q hd hdq hq hm
    obtain ⟨buf, st, es⟩ := d
    simp only at hd hdq
    subst hd
    subst hdq
    simp [numberFrom_nil, runAll_nil, Nat.mod_eq_of_lt hq]
  | cons m rest ih =>
    intro d q hd hdq hq hm
    have hmm : isMidFrag m = true := hm m (List.mem_cons_self _ _)
    rw [isMidFrag, Bool.and_eq_true, Bool.and_eq_true, Bool.not_eq_true', Bool.not_eq_true']
      at hmm
    obtain ⟨⟨hf, hs⟩, he⟩ := hmm
    have hstep : Depacketize d q m = ([], ⟨d.fuaBuf ++ m.drop 2, true, (q + 1) % 65536⟩) :=
      fua_mid d q m hf hs he hd hdq.symm
    rw [numberFrom_cons, runAll_cons, hstep]
    have h1 : (q + 1) % 65536 < 65536 := Nat.mod_lt _ (by omega)
    rw [ih ⟨d.fuaBuf ++ m.drop 2, true, (q + 1) % 65536⟩ ((q + 1) % 65536) rfl rfl h1
      (fun x hx => hm x (List.mem_cons_of_mem _ hx))]
    have hmod : ((q + 1) % 65536 + rest.length) % 65536 = (q + (m :: rest).length) % 65536 := by
      simp [List.length_cons]
      omega
    simp [hmod, List.flatMap_cons]

/-- A start fragment (end flag clear) followed by a block of in-sequence
middle fragments: no units are emitted and the buffer holds the
reconstructed header plus all data bytes so far. -/
theorem chainPrefix (d : H264Depacketizer) (q : Nat) (p0 : List Nat)
    (mids : List (List Nat)) (hq : q < 65536)
    (hp0 : isStartFrag p0 = true) (hp0e : fuaEndFlag p0 = false)
    (hm : ∀ m ∈ mids, isMidFrag m = true) :
    runAll d (numberFrom q (p0 :: mids)) =
      ([], ⟨fuaHeaderByte p0 :: (p0.drop 2 ++ mids.flatMap (List.drop 2)), true,
            (q + mids.length + 1) % 65536⟩) := by
  rw [isStartFrag, Bool.and_eq_true] at hp0
  obtain ⟨hf, hs⟩ := hp0
  have hstep : Depacketize d q p0 =
      ([], ⟨fuaHeaderByte p0 :: p0.drop 2, true, (q + 1) % 65536⟩) :=
    fua_start d q p0 hf hs hp0e
  rw [numberFrom_cons, runAll_cons, hstep]
  have h1 : (q + 1) % 65536 < 65536 := Nat.mod_lt _ (by omega)
  rw [midRun mids ⟨fuaHeaderByte p0 :: p0.drop 2, true, (q + 1) % 65536⟩ ((q + 1) % 65536)
    rfl rfl h1 hm]
  have hmod : ((q + 1) % 65536 + mids.length) % 65536 = (q + mids.length + 1) % 65536 := by
    omega
  simp [hmod]

/-- A complete FU-A chain (start, in-sequence middles, end) emits exactly one
NAL unit: the reconstructed header followed by all data bytes, and clears
the reassembly state. -/
theorem chainFull (d : H264Depacketizer) (q : Nat) (p0 : List Nat)
    (mids : List (List Nat)) (pl : List Nat) (hq : q < 65536)
    (hp0 : isStartFrag p0 = true) (hp0e : fuaEndFlag p0 = false)
    (hm : ∀ m ∈ mids, isMidFrag m = true) (hl : isEndFrag pl = true) :
    runAll d (numberFrom q (p0 :: (mids ++ [pl]))) =
      ([fuaHeaderByte p0 :: (p0.drop 2 ++ (mids.flatMap (List.drop 2) ++ pl.drop 2))],
       ⟨[], false, (q + mids.length + 2) % 65536⟩) := by
  rw [isEndFrag, Bool.and_eq_true, Bool.and_eq_true, Bool.not_eq_true'] at hl
  obtain ⟨⟨hlf, hls⟩, hle⟩ := hl
  rw [show p0 :: (mids ++ [pl]) = (p0 :: mids) ++ [pl] from rfl,
    numberFrom_append (p0 :: mids) [pl] q hq, runAll_append,
    chainPrefix d q p0 mids hq hp0 hp0e hm]
  have hlen : (q + (p0 :: mids).length) % 65536 = (q + mids.length + 1) % 65536 := by
    simp [List.length_cons]
    omega
  rw [hlen]
  set d2 : H264Depacketizer :=
    ⟨fuaHeaderByte p0 :: (p0.drop 2 ++ mids.flatMap (List.drop 2)), true,
     (q + mids.length + 1) % 65536⟩ with hd2
  have hseq : (q + mids.length + 1) % 65536 = d2.expectedSeq := by rw [hd2]
  have hstep : Depacketize d2 ((q + mids.length + 1) % 65536) pl =
      ([d2.fuaBuf ++ pl.drop 2], ⟨[], false, ((q + mids.length + 1) % 65536 + 1) % 65536⟩) :=
    fua_end d2 _ pl hlf hls hle rfl hseq
  rw [numberFrom_cons, runAll_cons, hstep]
  have hmod : ((q + mids.length + 1) % 65536 + 1) % 65536 = (q + mids.length + 2) % 65536 := by
    omega
  rw [hmod, hd2]
  simp [numberFrom_nil, runAll_nil]

/-- C1: for every depacketizer state with a FU-A reassembly in progress
(`fuaStarted = true`) and every non-start FU-A fragment whose sequence
number differs from `expectedSeq`, `Depacketize` discards all buffered
reassembly state, returns an empty result, and emits no unit for any
further mid/end fragment (until a new start fragment arrives). -/
theorem claimC1_fua_gap_discards_and_silences (d : H264Depacketizer) (q : Nat)
    (p : List Nat) (hd : d.fuaStarted = true) (hp : isMidEndFrag p = true)
    (hq : q ≠ d.expectedSeq) :
    Depacketize d q p = ([], ⟨[], false, d.expectedSeq⟩) ∧
    ∀ rest : List (Nat × List Nat), (∀ qp ∈ rest, isMidEndFrag qp.2 = true) →
      runAll ⟨[], false, d.expectedSeq⟩ rest = ([], ⟨[], false, d.expectedSeq⟩) := by
  rw [isMidEndFrag, Bool.and_eq_true, Bool.not_eq_true'] at hp
  exact ⟨fua_gap d q p hp.1 hp.2 hd hq,
    fun rest hrest => orphanRun ⟨[], false, d.expectedSeq⟩ rest rfl hrest⟩

theorem claimC1_witness :
    Depacketize ⟨[0x65, 1, 2], true, 101⟩ 102 [0x7C, 0x05, 3, 4] = ([], ⟨[], false, 101⟩) ∧
    runAll ⟨[], false, 101⟩ [(103, [0x7C, 0x45, 5, 6]), (104, [0x7C, 0x05, 7])] =
      ([], ⟨[], false, 101⟩) :=
  ⟨(claimC1_fua_gap_discards_and_silences ⟨[0x65, 1, 2], true, 101⟩ 102 [0x7C, 0x05, 3, 4]
      rfl (by decide) (by decide)).1,
   (claimC1_fua_gap_discards_and_silences ⟨[0x65, 1, 2], true, 101⟩ 102 [0x7C, 0x05, 3, 4]
      rfl (by decide) (by decide)).2
      [(103, [0x7C, 0x45, 5, 6]), (104, [0x7C, 0x05, 7])] (by decide)⟩

/-- C3: with no FU-A reassembly in progress, a non-start FU-A fragment is
dropped (empty result, state unchanged), and the instance can still
correctly reassemble a subsequently started fragment chain. -/
theorem claimC3_orphan_dropped_instance_unharmed (d : H264Depacketizer) (q : Nat)
    (p : List Nat) (hd : d.fuaStarted = false) (hp : isMidEndFrag p = true) :
    Depacketize d q p = ([], d) ∧
    ∀ (q0 : Nat) (p0 : List Nat) (mids : List (List Nat)) (pl : List Nat),
      q0 < 65536 → isStartFrag p0 = true → fuaEndFlag p0 = false →
      (∀ m ∈ mids, isMidFrag m = true) → isEndFrag pl = true →
      runAll d (numberFrom q0 (p0 :: (mids ++ [pl]))) =
        ([fuaHeaderByte p0 :: (p0.drop 2 ++ (mids.flatMap (List.drop 2) ++ pl.drop 2))],
         ⟨[], false, (q0 + mids.length + 2) % 65536⟩) := by
  rw [isMidEndFrag, Bool.and_eq_true, Bool.not_eq_true'] at hp
  exact ⟨fua_orphan d q p hp.1 hp.2 hd,
    fun q0 p0 mids pl hq0 hp0 hp0e hm hl => chainFull d q0 p0 mids pl hq0 hp0 hp0e hm hl⟩

theorem claimC3_witness :
    Depacketize ⟨[], false, 0⟩ 50 [0x7C, 0x45, 9] = ([], ⟨[], false, 0⟩) ∧
    runAll ⟨[], false, 0⟩
        [(100, [0x7C, 0x85, 1, 2]), (101, [0x7C, 0x05, 3, 4]), (102, [0x7C, 0x45, 5, 6])] =
      ([[0x65, 1, 2, 3, 4, 5, 6]], ⟨[], false, 103⟩) :=
  ⟨(claimC3_orphan_dropped_instance_unharmed ⟨[], false, 0⟩ 50 [0x7C, 0x45, 9]
      rfl (by decide)).1,
   (claimC3_orphan_dropped_instance_unharmed ⟨[], false, 0⟩ 50 [0x7C, 0x45, 9]
      rfl (by decide)).2 100 [0x7C, 0x85, 1, 2] [[0x7C, 0x05, 3, 4]] [0x7C, 0x45, 5, 6]
      (by decide) (by decide) (by decide) (by decide) (by decide)⟩

/-- C5: a FU-A chain (start fragment, consecutively numbered middle
fragments, end fragment) emits nothing before the last fragment and on the
last emits exactly one NAL unit: the reconstructed header byte (top three
bits of the FU indicator OR the NAL type of the FU header) followed by the
concatenation of all fragments' data bytes from byte 2 onward; a start
fragment that also carries the end flag immediately yields the
single-packet NAL and clears state. -/
theorem claimC5_fua_chain_reassembly (d : H264Depacketizer) (q : Nat) (p0 : List Nat)
    (mids : List (List Nat)) (pl : List Nat) (hq : q < 65536)
    (hp0 : isStartFrag p0 = true) (hm : ∀ m ∈ mids, isMidFrag m = true)
    (hl : isEndFrag pl = true) :
    (fuaEndFlag p0 = false →
      runAll d (numberFrom q (p0 :: mids)) =
        ([], ⟨fuaHeaderByte p0 :: (p0.drop 2 ++ mids.flatMap (List.drop 2)), true,
              (q + mids.length + 1) % 65536⟩) ∧
      runAll d (numberFrom q (p0 :: (mids ++ [pl]))) =
        ([fuaHeaderByte p0 :: (p0.drop 2 ++ (mids.flatMap (List.drop 2) ++ pl.drop 2))],
         ⟨[], false, (q + mids.length + 2) % 65536⟩)) ∧
    (fuaEndFlag p0 = true →
      Depacketize d q p0 = ([fuaHeaderByte p0 :: p0.drop 2], ⟨[], false, (q + 1) % 65536⟩)) := by
  constructor
  · intro hp0e
    exact ⟨chainPrefix d q p0 mids hq hp0 hp0e hm, chainFull d q p0 mids pl hq hp0 hp0e hm hl⟩
  · intro hp0e
    rw [isStartFrag, Bool.and_eq_true] at hp0
    exact fua_start_end d q p0 hp0.1 hp0.2 hp0e

theorem claimC5_witness :
    runAll ⟨[], false, 0⟩ (numberFrom 100 [[0x7C, 0x85, 1, 2], [0x7C, 0x05, 3, 4]]) =
      ([], ⟨[0x65, 1, 2, 3, 4], true, 102⟩) ∧
    runAll ⟨[], false, 0⟩
        (numberFrom 100 [[0x7C, 0x85, 1, 2], [0x7C, 0x05, 3, 4], [0x7C, 0x45, 5, 6]]) =
      ([[0x65, 1, 2, 3, 4, 5, 6]], ⟨[], false, 103⟩) ∧
    Depacketize ⟨[], false, 0⟩ 200 [0x7C, 0xC5, 9] = ([[0x65, 9]], ⟨[], false, 201⟩) :=
  ⟨((claimC5_fua_chain_reassembly ⟨[], false, 0⟩ 100 [0x7C, 0x85, 1, 2] [[0x7C, 0x05, 3, 4]]
      [0x7C, 0x45, 5, 6] (by decide) (by decide) (by decide) (by decide)).1 (by decide)).1,
   ((claimC5_fua_chain_reassembly ⟨[], false, 0⟩ 100 [0x7C, 0x85, 1, 2] [[0x7C, 0x05, 3, 4]]
      [0x7C, 0x45, 5, 6] (by decide) (by decide) (by decide) (by decide)).1 (by decide)).2,
   (claimC5_fua_chain_reassembly ⟨[], false, 0⟩ 200 [0x7C, 0xC5, 9] [] [0x7C, 0x45, 1]
      (by decide) (by decide) (by decide) (by decide)).2 (by decide)⟩

/-- C10: any input whose first byte's low five bits are not 28 (single NAL
types, STAP-A, unsupported types, the empty payload) leaves the FU-A
reassembly state unchanged, so an in-progress reassembly survives
interleaved non-fragmented packets. -/
theorem claimC10_nonFUA_preserves_state (d : H264Depacketizer) (q : Nat) (p : List Nat)
    (h : p = [] ∨ p.getD 0 0 &&& 0x1f ≠ 28) :
    (Depacketize d q p).2 = d ∧
    ∀ ps : List (Nat × List Nat),
      (∀ qp ∈ ps, qp.2 = [] ∨ qp.2.getD 0 0 &&& 0x1f ≠ 28) → (runAll d ps).2 = d := by
  have single : ∀ (d' : H264Depacketizer) (q' : Nat) (p' : List Nat),
      p' = [] ∨ p'.getD 0 0 &&& 0x1f ≠ 28 → (Depacketize d' q' p').2 = d' := by
    intro d' q' p' h'
    unfold Depacketize
    split_ifs with h1 h2 h3 h4
    · rfl
    · rfl
    · rfl
    · rcases h' with h' | h'
      · subst h'
        simp at h1
      · exact absurd h4 h'
    · rfl
  refine ⟨single d q p h, ?_⟩
  intro ps hps
  induction ps generalizing d with
  | nil => rfl
  | cons qp tl ih =>
    obtain ⟨q', p'⟩ := qp
    rw [runAll_cons]
    simp only
    rw [ih (Depacketize d q' p').2 (fun x hx => hps x (List.mem_cons_of_mem _ hx)),
      single d q' p' (hps (q', p') (List.mem_cons_self _ _))]

theorem claimC10_witness :
    (Depacketize ⟨[0x65, 1], true, 55⟩ 7 [0x41, 9, 9]).2 = ⟨[0x65, 1], true, 55⟩ ∧
    (runAll ⟨[0x65, 1], true, 55⟩
        [(1, [0x41, 9]), (2, [0x18, 0, 1, 0xAB]), (3, []), (4, [0x1F, 5])]).2 =
      ⟨[0x65, 1], true, 55⟩ :=
  ⟨(claimC10_nonFUA_preserves_state ⟨[0x65, 1], true, 55⟩ 7 [0x41, 9, 9]
      (by decide)).1,
   (claimC10_nonFUA_preserves_state ⟨[0x65, 1], true, 55⟩ 7 [0x41, 9, 9]
      (by decide)).2 [(1, [0x41, 9]), (2, [0x18, 0, 1, 0xAB]), (3, []), (4, [0x1F, 5])]
      (by decide)⟩

/-- The STAP-A parse loop as the specification words it: repeatedly read a
2-byte big-endian size (`b0 * 256 + b1`), then that many bytes as one NAL
unit; stop parsing, without error, at a decoded size of zero or at a size
that would exceed the remaining payload. Stated independently of the
source's `stapaLoop` so the two can be compared. -/
def stapaSpecLoop : List Nat → List (List Nat)
  | b0 :: b1 :: rest =>
    if b0 * 256 + b1 = 0 ∨ rest.length < b0 * 256 + b1 then []
    else rest.take (b0 * 256 + b1) :: stapaSpecLoop (rest.drop (b0 * 256 + b1))
  | _ => []
termination_by l => l.length
decreasing_by simp; omega

theorem stapaLoop_cons (b0 b1 : Nat) (rest : List Nat) :
    stapaLoop (b0 :: b1 :: rest) =
      if (b0 <<< 8) ||| b1 = 0 then []
      else if rest.length < (b0 <<< 8) ||| b1 then []
      else rest.take ((b0 <<< 8) ||| b1) :: stapaLoop (rest.drop ((b0 <<< 8) ||| b1)) := by
  rw [stapaLoop]

theorem stapaSpecLoop_cons (b0 b1 : Nat) (rest : List Nat) :
    stapaSpecLoop (b0 :: b1 :: rest) =
      if b0 * 256 + b1 = 0 ∨ rest.length < b0 * 256 + b1 then []
      else rest.take (b0 * 256 + b1) :: stapaSpecLoop (rest.drop (b0 * 256 + b1)) := by
  rw [stapaSpecLoop]

/-- `b0 <<< k ||| b1` is plain positional composition when `b1` fits in
`k` bits. -/
theorem shiftLeft_lor_eq_add (k : Nat) : ∀ b0 b1 : Nat, b1 < 2 ^ k →
    (b0 <<< k) ||| b1 = b0 * 2 ^ k + b1 := by
  induction k with
  | zero =>
    intro b0 b1 h
    interval_cases b1
    simp
  | succ k ih =>
    intro b0 b1 h
    have hs : b0 <<< (k + 1) = Nat.bit false (b0 <<< k) := by
      simp [Nat.bit, Nat.shiftLeft_succ]
    rw [hs]
    conv_lhs => rw [← Nat.bit_testBit_zero_shiftRight_one b1]
    rw [Nat.lor_bit]
    have h1 : b1 >>> 1 < 2 ^ k := by
      rw [Nat.shiftRight_one]
      omega
    rw [ih b0 (b1 >>> 1) h1]
    rw [Nat.bit_val, Bool.false_or, Nat.shiftRight_one, Nat.testBit_zero]
    rcases Nat.even_or_odd b1 with hp | hp
    · have h2 : b1 % 2 = 0 := Nat.even_iff.mp hp
      simp [h2]
      ring_nf
      omega
    · have h2 : b1 % 2 = 1 := Nat.odd_iff.mp hp
      simp [h2]
      ring_nf
      omega

theorem stapaLoop_eq_spec_aux (n : Nat) :
    ∀ l : List Nat, l.length ≤ n → (∀ b ∈ l, b < 256) → stapaLoop l = stapaSpecLoop l := by
  induction n with
  | zero =>
    intro l hl _
    have hnil : l = [] := List.length_eq_zero.mp (by omega)
    subst hnil
    simp [stapaLoop, stapaSpecLoop]
  | succ n ih =>
    intro l hl hb
    rcases l with _ | ⟨b0, _ | ⟨b1, rest⟩⟩
    · simp [stapaLoop, stapaSpecLoop]
    · simp [stapaLoop, stapaSpecLoop]
    · have hb1 : b1 < 256 := hb b1 (by simp)
      have hsz : (b0 <<< 8) ||| b1 = b0 * 256 + b1 := by
        have h := shiftLeft_lor_eq_add 8 b0 b1 (by omega)
        simpa using h
      rw [stapaLoop_cons, stapaSpecLoop_cons, hsz]
      by_cases h0 : b0 * 256 + b1 = 0
      · simp [h0]
      · by_cases hlen : rest.length < b0 * 256 + b1
        · simp [h0, hlen]
        · rw [if_neg h0, if_neg hlen, if_neg (by tauto)]
          congr 1
          apply ih
          · simp only [List.length_cons] at hl
            simp only [List.length_drop]
            omega
          · intro b hbmem
            exact hb b
              (List.mem_cons_of_mem _ (List.mem_cons_of_mem _ (List.mem_of_mem_drop hbmem)))

/-- On byte-valued payloads, the source STAP-A loop computes exactly what
the specification describes. -/
theorem stapaLoop_eq_spec (l : List Nat) (hb : ∀ b ∈ l, b < 256) :
    stapaLoop l = stapaSpecLoop l :=
  stapaLoop_eq_spec_aux l.length l le_rfl hb

/-- C4: for every STAP-A payload (NAL type 24), `Depacketize` skips the
1-byte header and repeatedly reads a 2-byte big-endian size followed by
that many bytes as one NAL unit, stopping without error at the first
decoded size that is zero or that would exceed the remaining payload, and
returns exactly the units parsed before that point, in order (with the
FU-A state untouched). -/
theorem claimC4_stapa_parses_as_specified (d : H264Depacketizer) (q : Nat) (p : List Nat)
    (hne : p ≠ []) (h24 : p.getD 0 0 &&& 0x1f = 24) (hbytes : ∀ b ∈ p, b < 256) :
    Depacketize d q p = (stapaSpecLoop (p.drop 1), d) := by
  have h0 : ¬ p.length < 1 := by
    cases p
    · simp at hne
    · simp
  have h23 : ¬ (1 ≤ p.getD 0 0 &&& 0x1f ∧ p.getD 0 0 &&& 0x1f ≤ 23) := by
    rw [h24]
    omega
  unfold Depacketize
  rw [if_neg h0, if_neg h23, if_pos h24, depacketizeSTAPA,
    stapaLoop_eq_spec (p.drop 1) (fun b hbm => hbytes b (List.mem_of_mem_drop hbm))]

theorem claimC4_witness :
    Depacketize NewH264Depacketizer 0 [0x18, 0, 3, 0x67, 0xAA, 0xBB, 0, 2, 0x68, 0xCC] =
      ([[0x67, 0xAA, 0xBB], [0x68, 0xCC]], NewH264Depacketizer) ∧
    Depacketize NewH264Depacketizer 0 [0x18, 0, 0, 9, 9] = ([], NewH264Depacketizer) ∧
    Depacketize NewH264Depacketizer 0 [0x18, 0, 9, 1, 2] = ([], NewH264Depacketizer) := by
  refine ⟨?_, ?_, ?_⟩
  · rw [claimC4_stapa_parses_as_specified NewH264Depacketizer 0
      [0x18, 0, 3, 0x67, 0xAA, 0xBB, 0, 2, 0x68, 0xCC] (by decide) (by decide) (by decide)]
    simp [stapaSpecLoop]
  · rw [claimC4_stapa_parses_as_specified NewH264Depacketizer 0
      [0x18, 0, 0, 9, 9] (by decide) (by decide) (by decide)]
    simp [stapaSpecLoop]
  · rw [claimC4_stapa_parses_as_specified NewH264Depacketizer 0
      [0x18, 0, 9, 1, 2] (by decide) (by decide) (by decide)]
    simp [stapaSpecLoop]

/-- Checked indexing: Go panics on an out-of-range index; `none` models the
fault. -/
def idx? (l : List Nat) (i : Nat) : Option Nat := l[i]?

/-- Checked slice `l[a:b]`: valid in Go iff `a ≤ b ≤ len(l)`. -/
def slice? (l : List Nat) (a b : Nat) : Option (List Nat) :=
  if a ≤ b ∧ b ≤ l.length then some ((l.drop a).take (b - a)) else none

/-- Checked slice `l[a:]`: valid in Go iff `a ≤ len(l)`. -/
def sliceFrom? (l : List Nat) (a : Nat) : Option (List Nat) :=
  if a ≤ l.length then some (l.drop a) else none

/-- The STAP-A loop with every index and slice access checked, following the
source's offset arithmetic literally; `none` would mark an out-of-range
access. -/
def stapaLoopChecked (payload : List Nat) (offset : Nat) : Option (List (List Nat)) :=
  if h : offset + 2 ≤ payload.length then
    match idx? payload offset, idx? payload (offset + 1) with
    | some b0, some b1 =>
      if (b0 <<< 8) ||| b1 = 0 then some []
      else if payload.length < offset + 2 + ((b0 <<< 8) ||| b1) then some []
      else
        match slice? payload (offset + 2) (offset + 2 + ((b0 <<< 8) ||| b1)),
              stapaLoopChecked payload (offset + 2 + ((b0 <<< 8) ||| b1)) with
        | some unit, some more => some (unit :: more)
        | _, _ => none
    | _, _ => none
  else some []
termination_by payload.length - offset
decreasing_by omega

def depacketizeSTAPAChecked (payload : List Nat) : Option (List (List Nat)) :=
  stapaLoopChecked payload 1

/-- FU-A handling with checked byte and slice accesses. -/
def depacketizeFUAChecked (d : H264Depacketizer) (q : Nat) (payload : List Nat) :
    Option (List (List Nat) × H264Depacketizer) :=
  if payload.length < 2 then some ([], d)
  else
    match idx? payload 0, idx? payload 1, sliceFrom? payload 2 with
    | some b0, some b1, some rest =>
      if b1 &&& 0x80 ≠ 0 then
        if b1 &&& 0x40 ≠ 0 then
          some ([((b0 &&& 0xe0) ||| (b1 &&& 0x1f)) :: rest], ⟨[], false, (q + 1) % 65536⟩)
        else
          some ([], ⟨((b0 &&& 0xe0) ||| (b1 &&& 0x1f)) :: rest, true, (q + 1) % 65536⟩)
      else if d.fuaStarted = false then some ([], d)
      else if q ≠ d.expectedSeq then some ([], ⟨[], false, d.expectedSeq⟩)
      else if b1 &&& 0x40 ≠ 0 then
        some ([d.fuaBuf ++ rest], ⟨[], false, (q + 1) % 65536⟩)
      else some ([], ⟨d.fuaBuf ++ rest, d.fuaStarted, (q + 1) % 65536⟩)
    | _, _, _ => none

/-- `Depacketize` with every payload access checked. -/
def DepacketizeChecked (d : H264Depacketizer) (q : Nat) (payload : List Nat) :
    Option (List (List Nat) × H264Depacketizer) :=
  if payload.length < 1 then some ([], d)
  else
    match idx? payload 0 with
    | some b0 =>
      if 1 ≤ b0 &&& 0x1f ∧ b0 &&& 0x1f ≤ 23 then some ([payload], d)
      else if b0 &&& 0x1f = 24 then
        match depacketizeSTAPAChecked payload with
        | some nalus => some (nalus, d)
        | none => none
      else if b0 &&& 0x1f = 28 then depacketizeFUAChecked d q payload
      else some ([], d)
    | none => none

theorem stapaLoop_short (l : List Nat) (h : l.length < 2) : stapaLoop l = [] := by
  rcases l with _ | ⟨b0, _ | ⟨b1, rest⟩⟩
  · simp [stapaLoop]
  · simp [stapaLoop]
  · simp only [List.length_cons] at h
    omega

theorem stapaLoopChecked_eq_aux (n : Nat) :
    ∀ (payload : List Nat) (offset : Nat), payload.length - offset ≤ n →
      stapaLoopChecked payload offset = some (stapaLoop (payload.drop offset)) := by
  induction n with
  | zero =>
    intro payload offset hn
    have h : ¬ offset + 2 ≤ payload.length := by omega
    rw [stapaLoopChecked]
    rw [dif_neg h]
    rw [stapaLoop_short _ (by simp [List.length_drop]; omega)]
  | succ n ih =>
    intro payload offset hn
    by_cases h : offset + 2 ≤ payload.length
    · obtain ⟨b0, b1, rest, hdrop⟩ :
          ∃ b0 b1 rest, payload.drop offset = b0 :: b1 :: rest := by
        rcases hd : payload.drop offset with _ | ⟨b0, _ | ⟨b1, rest⟩⟩
        · have := congrArg List.length hd
          simp [List.length_drop] at this
          omega
        · have := congrArg List.length hd
          simp [List.length_drop] at this
          omega
        · exact ⟨b0, b1, rest, rfl⟩
      have hlenrest : rest.length = payload.length - (offset + 2) := by
        have := congrArg List.length hdrop
        simp [List.length_drop] at this
        omega
      have hb0 : idx? payload offset = some b0 := by
        have h0 := List.getElem?_drop payload offset 0
        rw [hdrop] at h0
        simpa [idx?] using h0.symm
      have hb1 : idx? payload (offset + 1) = some b1 := by
        have h0 := List.getElem?_drop payload offset 1
        rw [hdrop] at h0
        simpa [idx?] using h0.symm
      have hdrop2 : payload.drop (offset + 2) = rest := by
        have hd := List.drop_drop 2 offset payload
        rw [hdrop] at hd
        simpa using hd.symm
      rw [stapaLoopChecked, dif_pos h, hb0, hb1, hdrop, stapaLoop_cons]
      by_cases h0 : (b0 <<< 8) ||| b1 = 0
      · simp [h0]
      · by_cases hov : payload.length < offset + 2 + ((b0 <<< 8) ||| b1)
        · have hov2 : rest.length < (b0 <<< 8) ||| b1 := by omega
          simp [h0, hov, hov2]
        · have hov2 : ¬ rest.length < (b0 <<< 8) ||| b1 := by omega
          have hslice : slice? payload (offset + 2) (offset + 2 + ((b0 <<< 8) ||| b1)) =
              some (rest.take ((b0 <<< 8) ||| b1)) := by
            rw [slice?, if_pos (by omega)]
            rw [hdrop2, show offset + 2 + ((b0 <<< 8) ||| b1) - (offset + 2) =
              (b0 <<< 8) ||| b1 by omega]
          have hrec : stapaLoopChecked payload (offset + 2 + ((b0 <<< 8) ||| b1)) =
              some (stapaLoop (payload.drop (offset + 2 + ((b0 <<< 8) ||| b1)))) := by
            apply ih
            omega
          have hdroprec : payload.drop (offset + 2 + ((b0 <<< 8) ||| b1)) =
              rest.drop ((b0 <<< 8) ||| b1) := by
            have hd := List.drop_drop ((b0 <<< 8) ||| b1) (offset + 2) payload
            rw [hdrop2] at hd
            exact hd.symm
          simp [h0, hov, hov2, hslice, hrec, hdroprec]
    · rw [stapaLoopChecked, dif_neg h,
        stapaLoop_short _ (by simp [List.length_drop]; omega)]

/-- The checked STAP-A loop never faults and computes the source loop's
result on the remaining payload. -/
theorem stapaLoopChecked_eq (payload : List Nat) (offset : Nat) :
    stapaLoopChecked payload offset = some (stapaLoop (payload.drop offset)) :=
  stapaLoopChecked_eq_aux (payload.length - offset) payload offset le_rfl

/-- The checked FU-A handler never faults and agrees with the source
embedding. -/
theorem depacketizeFUAChecked_eq (d : H264Depacketizer) (q : Nat) (p : List Nat) :
    depacketizeFUAChecked d q p = some (depacketizeFUA d q p) := by
  by_cases h2 : p.length < 2
  · rw [depacketizeFUAChecked, if_pos h2, depacketizeFUA, if_pos h2]
  · rcases p with _ | ⟨b0, _ | ⟨b1, rest⟩⟩
    · exact absurd (by simp) h2
    · exact absurd (by simp) h2
    · rw [depacketizeFUAChecked, if_neg h2, depacketizeFUA, if_neg h2]
      have hidx0 : idx? (b0 :: b1 :: rest) 0 = some b0 := by simp [idx?]
      have hidx1 : idx? (b0 :: b1 :: rest) 1 = some b1 := by simp [idx?]
      have hslice : sliceFrom? (b0 :: b1 :: rest) 2 = some rest := by
        rw [sliceFrom?, if_pos (by simp)]
        rfl
      rw [hidx0, hidx1, hslice]
      simp only [List.getD_cons_succ, List.getD_cons_zero, List.drop_succ_cons,
        List.drop_zero]
      split_ifs <;> rfl

/-- The checked depacketizer never faults and agrees with the source
embedding. -/
theorem DepacketizeChecked_eq (d : H264Depacketizer) (q : Nat) (p : List Nat) :
    DepacketizeChecked d q p = some (Depacketize d q p) := by
  by_cases h1 : p.length < 1
  · rw [DepacketizeChecked, if_pos h1, Depacketize, if_pos h1]
  · rcases p with _ | ⟨b0, rest⟩
    · exact absurd (by simp) h1
    · rw [DepacketizeChecked, if_neg h1, Depacketize, if_neg h1]
      have hidx0 : idx? (b0 :: rest) 0 = some b0 := by simp [idx?]
      rw [hidx0]
      simp only [List.getD_cons_zero]
      by_cases ha : 1 ≤ b0 &&& 0x1f ∧ b0 &&& 0x1f ≤ 23
      · rw [if_pos ha, if_pos ha]
      · rw [if_neg ha, if_neg ha]
        by_cases hb : b0 &&& 0x1f = 24
        · rw [if_pos hb, if_pos hb, depacketizeSTAPAChecked, stapaLoopChecked_eq,
            depacketizeSTAPA]
        · rw [if_neg hb, if_neg hb]
          by_cases hc : b0 &&& 0x1f = 28
          · rw [if_pos hc, if_pos hc, depacketizeFUAChecked_eq]
          · rw [if_neg hc, if_neg hc]

/-- C7: `Depacketize` is total. With every Go index and slice access
modelled as a checked operation that faults when out of range, no input
faults: the checked run always returns the unchecked result. There is no
error return: the empty payload, payloads whose NAL type is outside
1..23, 24, 28, and FU-A payloads shorter than two bytes all yield an empty
result with the state unchanged. -/
theorem claimC7_depacketize_total (d : H264Depacketizer) (q : Nat) (p : List Nat) :
    DepacketizeChecked d q p = some (Depacketize d q p) ∧
    (p = [] → Depacketize d q p = ([], d)) ∧
    (¬ (1 ≤ p.getD 0 0 &&& 0x1f ∧ p.getD 0 0 &&& 0x1f ≤ 23) →
      p.getD 0 0 &&& 0x1f ≠ 24 → p.getD 0 0 &&& 0x1f ≠ 28 →
      Depacketize d q p = ([], d)) ∧
    (p.getD 0 0 &&& 0x1f = 28 → p.length < 2 → Depacketize d q p = ([], d)) := by
  refine ⟨DepacketizeChecked_eq d q p, ?_, ?_, ?_⟩
  · intro hnil
    subst hnil
    rfl
  · intro ha hb hc
    by_cases h1 : p.length < 1
    · rw [Depacketize, if_pos h1]
    · rw [Depacketize, if_neg h1, if_neg ha, if_neg hb, if_neg hc]
  · intro h28 hlt
    by_cases h1 : p.length < 1
    · rw [Depacketize, if_pos h1]
    · exact fua_short d q p (by omega) h28 hlt

theorem claimC7_witness :
    DepacketizeChecked ⟨[], false, 0⟩ 3 [0x99] = some (Depacketize ⟨[], false, 0⟩ 3 [0x99]) ∧
    Depacketize ⟨[], false, 0⟩ 3 [] = ([], ⟨[], false, 0⟩) ∧
    Depacketize ⟨[], false, 0⟩ 3 [0x99] = ([], ⟨[], false, 0⟩) ∧
    Depacketize ⟨[], false, 0⟩ 3 [0x7C] = ([], ⟨[], false, 0⟩) :=
  ⟨(claimC7_depacketize_total ⟨[], false, 0⟩ 3 [0x99]).1,
   (claimC7_depacketize_total ⟨[], false, 0⟩ 3 []).2.1 rfl,
   (claimC7_depacketize_total ⟨[], false, 0⟩ 3 [0x99]).2.2.1 (by decide) (by decide)
     (by decide),
   (claimC7_depacketize_total ⟨[], false, 0⟩ 3 [0x7C]).2.2.2 (by decide) (by decide)⟩

/-- The `remoteDescSet` channel used as a one-shot latch: still open (gate
not released) or closed (gate released). -/
inductive GateChan where
  | pending
  | released
deriving DecidableEq, Repr

/-- Go `close` on a channel: closing an open channel closes it; closing an
already-closed channel is a runtime panic, modelled as `none`. -/
def closeChan : GateChan → Option GateChan
  | .pending => some .released
  | .released => none

/-- Outcome of one `SetRemoteDescription` call. -/
inductive SetRemoteResult where
  | ok (gate : GateChan)
  | engineErr
  | panicked
deriving DecidableEq, Repr

/-- `SetRemoteDescription` (peer.go): apply the answer through the engine;
on engine failure return the wrapped error without touching the gate; on
success run `close(p.remoteDescSet)` unconditionally and return nil.
`engineOk` abstracts the outcome of the external pion call. -/
def SetRemoteDescription (engineOk : Bool) (gate : GateChan) : SetRemoteResult :=
  if engineOk then
    match closeChan gate with
    | some g => .ok g
    | none => .panicked
  else .engineErr

/-- C2 counterexample: after a first successful call has released the gate,
a second successful `SetRemoteDescription` in the same session panics
(close of an already-closed channel); it is not surfaced as an error
result, contrary to the claim. -/
theorem claimC2_counterexample :
    SetRemoteDescription true GateChan.pending = .ok .released ∧
    SetRemoteDescription true GateChan.released = .panicked ∧
    SetRemoteResult.panicked ≠ SetRemoteResult.engineErr := by
  exact ⟨rfl, rfl, by decide⟩

/-- C2 (amended): `SetRemoteDescription` releases the remote-description
gate exactly once per session — the first successful call moves the gate
from pending to released, a failed engine call never touches the gate, and
a second successful call does not release again: it panics the process
(unguarded close of a closed channel) rather than returning an error. -/
theorem claimC2_gate_released_once (g : GateChan) :
    SetRemoteDescription true GateChan.pending = .ok .released ∧
    SetRemoteDescription true GateChan.released = .panicked ∧
    SetRemoteDescription false g = .engineErr := by
  exact ⟨rfl, rfl, rfl⟩

/-- State of one session's remote-candidate handling: the gate channel,
the candidates whose goroutines are blocked on the channel receive, the
candidates already applied to the peer connection, and how many
`onRemoteCandidate` events have arrived. -/
structure CandSession where
  gate : GateChan
  pending : List Nat
  applied : List Nat
  events : Nat
deriving DecidableEq, Repr

/-- Interleaved execution steps of the session's concurrent tasks:
`remoteCandidate` — `OnRemoteICECandidate` (viewer.go) spawns a goroutine
running `AddRemoteICECandidate` (peer.go), which immediately blocks
receiving from `remoteDescSet`;
`answerApplied` — a successful `SetRemoteDescription` closes
`remoteDescSet`, releasing the gate;
`applyCandidate` — a blocked `AddRemoteICECandidate` task can resume only
once the channel is closed, and then applies its candidate. -/
inductive CandStep : CandSession → CandSession → Prop where
  | remoteCandidate (c : Nat) (s : CandSession) :
      CandStep s ⟨s.gate, c :: s.pending, s.applied, s.events + 1⟩
  | answerApplied (s : CandSession) (h : s.gate = .pending) :
      CandStep s ⟨.released, s.pending, s.applied, s.events⟩
  | applyCandidate (c : Nat) (s : CandSession) (hg : s.gate = .released)
      (hc : c ∈ s.pending) :
      CandStep s ⟨s.gate, s.pending.erase c, c :: s.applied, s.events⟩

/-- A fresh session: gate unreleased, no candidate tasks, nothing applied. -/
def CandInit : CandSession := ⟨.pending, [], [], 0⟩

/-- The session states reachable by interleaving the three kinds of step. -/
def CandReachable (s : CandSession) : Prop :=
  Relation.ReflTransGen CandStep CandInit s

/-- C6: in every reachable session state, no remote candidate has been
applied while the remote-description gate is unreleased (a candidate is
never applied before the remote description), and candidate application is
attempted for every `onRemoteCandidate` event: each event's candidate is
either still blocked on the gate or already applied. -/
theorem claimC6_candidate_never_precedes_answer (s : CandSession)
    (h : CandReachable s) :
    (s.gate = .pending → s.applied = []) ∧
    s.pending.length + s.applied.length = s.events := by
  induction h with
  | refl => exact ⟨fun _ => rfl, rfl⟩
  | @tail s1 s2 _ hstep ih =>
    cases hstep with
    | remoteCandidate c s' =>
      refine ⟨fun hgp => ih.1 hgp, ?_⟩
      have h2 := ih.2
      simp only [List.length_cons]
      omega
    | answerApplied s' hgate =>
      exact ⟨fun hgp => by simp at hgp, ih.2⟩
    | applyCandidate c s' hg hc =>
      refine ⟨fun hgp => ?_, ?_⟩
      · rw [hg] at hgp
        simp at hgp
      · have hlen : (s1.pending.erase c).length = s1.pending.length - 1 :=
          List.length_erase_of_mem hc
        have hpos : 0 < s1.pending.length := List.length_pos.mpr (by
          intro hnil
          rw [hnil] at hc
          simp at hc)
        have h2 := ih.2
        simp only [List.length_cons, hlen]
        omega

theorem claimC6_witness :
    ((⟨GateChan.released, [], [5], 1⟩ : CandSession).gate = GateChan.pending →
      (⟨GateChan.released, [], [5], 1⟩ : CandSession).applied = []) ∧
    ([] : List Nat).length + ([5] : List Nat).length = 1 :=
  claimC6_candidate_never_precedes_answer ⟨GateChan.released, [], [5], 1⟩
    (Relation.ReflTransGen.tail
      (Relation.ReflTransGen.tail
        (Relation.ReflTransGen.tail Relation.ReflTransGen.refl
          (CandStep.remoteCandidate 5 CandInit))
        (CandStep.answerApplied ⟨GateChan.pending, [5], [], 1⟩ rfl))
      (CandStep.applyCandidate 5 ⟨GateChan.released, [5], [], 1⟩ rfl (by decide)))

/-- `domain.SDPPayload`: the JSON structure of SDP offer/answer messages. -/
structure SDPPayload where
  type : String
  sdp : String
deriving DecidableEq, Repr

/-- `domain.ICECandidatePayload`: the JSON structure of ICE candidate
messages. -/
structure ICECandidatePayload where
  sdpMid : String
  sdpMLineIndex : Int
  candidate : String
deriving DecidableEq, Repr

/-- The fields of the inbound `message` envelope that `dispatch`
inspects. -/
structure SigMessage where
  method : String
  code : Option Int
  messageType : String
  messagePayload : String
deriving DecidableEq, Repr

/-- The `domain.Handler` callbacks a dispatched frame can invoke. -/
inductive HandlerCall where
  | onAuthSuccess
  | onPeerIn
  | onPeerOut
  | onSDPAnswer (sdp : SDPPayload)
  | onRemoteICECandidate (c : ICECandidatePayload)
deriving DecidableEq, Repr

/-- `dispatch` (signaling client): switch on `method`, and for TRANSMIT on
`messageType`; base64-decode-then-JSON-unmarshal of the nested payload is
abstracted by the `decodeSDP` / `decodeICE` parameters (standard-library
calls), with `none` for any decode failure; `none` as the overall result
means the frame is dropped: no handler callback runs. AUTH_RESPONSE with a
non-zero (or absent) code is logged only; JOIN_LIVE_RESPONSE,
TRANSMIT_RESPONSE and RESPONSE are no-ops; an unknown method falls through
to the logged default. -/
def dispatch (decodeSDP : String → Option SDPPayload)
    (decodeICE : String → Option ICECandidatePayload)
    (msg : SigMessage) : Option HandlerCall :=
  if msg.method = "AUTH_RESPONSE" then
    if msg.code = some 0 then some .onAuthSuccess else none
  else if msg.method = "JOIN_LIVE_RESPONSE" then none
  else if msg.method = "PEER_IN" then some .onPeerIn
  else if msg.method = "PEER_OUT" then some .onPeerOut
  else if msg.method = "TRANSMIT" then
    if msg.messageType = "SDP_ANSWER" then
      match decodeSDP msg.messagePayload with
      | some sdp => some (.onSDPAnswer sdp)
      | none => none
    else if msg.messageType = "ICE_CANDIDATE" then
      match decodeICE msg.messagePayload with
      | some c => some (.onRemoteICECandidate c)
      | none => none
    else none
  else if msg.method = "TRANSMIT_RESPONSE" then none
  else if msg.method = "RESPONSE" then none
  else none

/-- The read loop's frame handling (`readLoop`): a frame whose envelope
fails JSON unmarshalling (`none`) is skipped with `continue`; otherwise it
is dispatched; in both cases the loop proceeds to the remaining frames.
The result lists the handler calls made, in order. -/
def readLoopCalls (decodeSDP : String → Option SDPPayload)
    (decodeICE : String → Option ICECandidatePayload) :
    List (Option SigMessage) → List HandlerCall
  | [] => []
  | none :: rest => readLoopCalls decodeSDP decodeICE rest
  | some m :: rest =>
    match dispatch decodeSDP decodeICE m with
    | some call => call :: readLoopCalls decodeSDP decodeICE rest
    | none => readLoopCalls decodeSDP decodeICE rest

/-- A frame of the kind claim C8 says is dropped: envelope JSON failure, a
method outside the dispatched set, a TRANSMIT with an unknown messageType,
or a TRANSMIT payload whose base64/JSON decoding fails. -/
def droppedFrame (decodeSDP : String → Option SDPPayload)
    (decodeICE : String → Option ICECandidatePayload)
    (f : Option SigMessage) : Prop :=
  match f with
  | none => True
  | some m =>
      m.method ∉ (["AUTH_RESPONSE", "JOIN_LIVE_RESPONSE", "PEER_IN", "PEER_OUT",
        "TRANSMIT", "TRANSMIT_RESPONSE", "RESPONSE"] : List String) ∨
      (m.method = "TRANSMIT" ∧
        m.messageType ∉ (["SDP_ANSWER", "ICE_CANDIDATE"] : List String)) ∨
      (m.method = "TRANSMIT" ∧ m.messageType = "SDP_ANSWER" ∧
        decodeSDP m.messagePayload = none) ∨
      (m.method = "TRANSMIT" ∧ m.messageType = "ICE_CANDIDATE" ∧
        decodeICE m.messagePayload = none)

theorem dispatch_dropped (decodeSDP : String → Option SDPPayload)
    (decodeICE : String → Option ICECandidatePayload) (m : SigMessage)
    (h : droppedFrame decodeSDP decodeICE (some m)) :
    dispatch decodeSDP decodeICE m = none := by
  rw [droppedFrame] at h
  rcases h with h | ⟨ht, hmt⟩ | ⟨ht, hmt, hd⟩ | ⟨ht, hmt, hd⟩
  · simp only [List.mem_cons, List.mem_singleton, not_or] at h
    obtain ⟨h1, h2, h3, h4, h5, h6, h7⟩ := h
    simp [dispatch, h1, h2, h3, h4, h5, h6, h7]
  · simp only [List.mem_cons, List.mem_singleton, not_or] at hmt
    obtain ⟨hm1, hm2⟩ := hmt
    simp [dispatch, ht, hm1, hm2]
  · simp [dispatch, ht, hmt, hd]
  · have hmne : m.messageType ≠ "SDP_ANSWER" := by
      rw [hmt]
      decide
    simp [dispatch, ht, hmt, hmne, hd]

/-- C8: every inbound frame that fails envelope decoding, carries a method
outside the dispatched set, carries a TRANSMIT with an unknown
messageType, or whose nested payload fails base64/JSON decoding, is
dropped: no handler callback is invoked for it, and the read loop's
processing of the surrounding frames is exactly as if the frame were
absent — such a frame is never fatal to the session. -/
theorem claimC8_bad_frames_dropped_nonfatal (decodeSDP : String → Option SDPPayload)
    (decodeICE : String → Option ICECandidatePayload) (f : Option SigMessage)
    (h : droppedFrame decodeSDP decodeICE f) :
    (∀ m, f = some m → dispatch decodeSDP decodeICE m = none) ∧
    ∀ pre post : List (Option SigMessage),
      readLoopCalls decodeSDP decodeICE (pre ++ f :: post) =
        readLoopCalls decodeSDP decodeICE pre ++ readLoopCalls decodeSDP decodeICE post := by
  have hdrop : ∀ m, f = some m → dispatch decodeSDP decodeICE m = none := by
    intro m hm
    subst hm
    exact dispatch_dropped decodeSDP decodeICE m h
  refine ⟨hdrop, ?_⟩
  intro pre post
  induction pre with
  | nil =>
    rcases f with _ | m
    · rfl
    · simp only [List.nil_append, readLoopCalls, hdrop m rfl]
  | cons g rest ih =>
    rcases g with _ | m
    · simp only [List.cons_append, readLoopCalls, List.append_eq, ih]
    · simp only [List.cons_append, readLoopCalls, List.append_eq]
      cases hd : dispatch decodeSDP decodeICE m
      · simp only [ih]
      · simp only [ih, List.cons_append]

theorem claimC8_witness :
    dispatch (fun _ => none) (fun _ => none) ⟨"BOGUS_METHOD", some 0, "", ""⟩ = none ∧
    readLoopCalls (fun _ => none) (fun _ => none)
        [some ⟨"PEER_IN", none, "", ""⟩, some ⟨"BOGUS_METHOD", some 0, "", ""⟩,
         some ⟨"PEER_OUT", none, "", ""⟩] =
      readLoopCalls (fun _ => none) (fun _ => none) [some ⟨"PEER_IN", none, "", ""⟩] ++
        readLoopCalls (fun _ => none) (fun _ => none) [some ⟨"PEER_OUT", none, "", ""⟩] :=
  ⟨(claimC8_bad_frames_dropped_nonfatal (fun _ => none) (fun _ => none)
      (some ⟨"BOGUS_METHOD", some 0, "", ""⟩) (by left; decide)).1 _ rfl,
   (claimC8_bad_frames_dropped_nonfatal (fun _ => none) (fun _ => none)
      (some ⟨"BOGUS_METHOD", some 0, "", ""⟩) (by left; decide)).2
      [some ⟨"PEER_IN", none, "", ""⟩] [some ⟨"PEER_OUT", none, "", ""⟩]⟩

/-- Outbound signaling envelope fields set by the send helpers (outbound
direction of the signaling client's `message` struct). -/
structure OutMessage where
  method : String := ""
  messageType : String := ""
  messagePayload : String := ""
  mode : String := ""
  recipientClientId : String := ""
  senderClientId : String := ""
  sessionId : String := ""
  viewerType : String := ""
  resolution : String := ""
  version : String := ""
deriving DecidableEq, Repr

/-- `SendSDPOffer` (signaling client): wrap the SDP text as
`SDPPayload{type: "offer", sdp}`, JSON-marshal and base64-encode it
(standard-library calls, abstracted as `jsonSDP` and `b64`), and send one
TRANSMIT / SDP_OFFER frame carrying it with the fixed metadata. -/
def SendSDPOffer (jsonSDP : SDPPayload → List Nat) (b64 : List Nat → String)
    (serial ticketID sessionID : String) (sdp : String) : OutMessage :=
  { method := "TRANSMIT"
    messageType := "SDP_OFFER"
    messagePayload := b64 (jsonSDP ⟨"offer", sdp⟩)
    mode := "vicoo"
    recipientClientId := serial
    senderClientId := ticketID
    sessionId := sessionID
    viewerType := "a4x_sdk"
    resolution := "1280x720"
    version := "0.0.1" }

/-- An observable action of the coordinator. -/
inductive ViewerAction where
  | send (m : OutMessage)
  | fatalAbort
deriving DecidableEq, Repr

/-- `OnPeerIn` (viewer.go): call `peer.CreateOffer()`; on success pass the
returned SDP text to `signal.SendSDPOffer`; on failure `log.Fatalf` aborts
the session. `offerResult` abstracts the engine-backed offer creation. -/
def OnPeerIn (jsonSDP : SDPPayload → List Nat) (b64 : List Nat → String)
    (serial ticketID sessionID : String) (offerResult : Except String String) :
    List ViewerAction :=
  match offerResult with
  | .ok sdp => [.send (SendSDPOffer jsonSDP b64 serial ticketID sessionID sdp)]
  | .error _ => [.fatalAbort]

/-- C9: when offer creation succeeds, `OnPeerIn` causes exactly one
action — a TRANSMIT/SDP_OFFER send whose payload is the base64 encoding of
the JSON marshalling of `{type: "offer", sdp}` for exactly the SDP text
returned by the offer call; when offer creation fails the session is
aborted as fatal and nothing is sent. -/
theorem claimC9_onPeerIn_sends_exactly_one_offer (jsonSDP : SDPPayload → List Nat)
    (b64 : List Nat → String) (serial ticketID sessionID sdp e : String) :
    OnPeerIn jsonSDP b64 serial ticketID sessionID (.ok sdp) =
      [ViewerAction.send
        { method := "TRANSMIT", messageType := "SDP_OFFER",
          messagePayload := b64 (jsonSDP ⟨"offer", sdp⟩),
          mode := "vicoo", recipientClientId := serial, senderClientId := ticketID,
          sessionId := sessionID, viewerType := "a4x_sdk",
          resolution := "1280x720", version := "0.0.1" }] ∧
    OnPeerIn jsonSDP b64 serial ticketID sessionID (.error e) = [ViewerAction.fatalAbort] :=
  ⟨rfl, rfl⟩

end Vicostream
